import Mathlib

/-!
Verification of the claude-code agent plugin core (parser.ts, watcher.ts,
utils.ts, cache usage) against its natural-language specification.

The TypeScript source is shallowly embedded: JSON-decodable values become the
inductive `Json`; JavaScript `Map`/`Set` objects become association lists with
insertion-order-preserving upsert; asynchronous filesystem access becomes an
explicit `World` record supplying the results of `readdir`/`stat`/file reads,
with the number of filesystem operations counted in the output; the host
runtime's `Date.parse` (plus JavaScript string coercion) is an abstract
parameter `dp : Json → Option Int`, and `Date.now()` an explicit `now : Int`.
Thrown exceptions become `Except Unit`.
-/

namespace AgentClaudeCode

/-- A JSON-decodable JavaScript value (output of `JSON.parse`).  Numbers are
modelled as rationals (JSON numeric literals are finite decimals). -/
inductive Json where
  | null : Json
  | bool : Bool → Json
  | num : ℚ → Json
  | str : String → Json
  | arr : List Json → Json
  | obj : List (String × Json) → Json

/-- Property lookup on a parsed-JSON object: `JSON.parse` keeps the last of
duplicate keys, so the lookup returns the last binding.  Property access on a
non-object (including arrays, whose own keys are numeric) yields `undefined`,
modelled as `none`. -/
def lookupLast : List (String × Json) → String → Option Json
  | [], _ => none
  | (k', v) :: rest, k =>
    match lookupLast rest k with
    | some r => some r
    | none => if k' = k then some v else none

/-- `candidate.field` on a decoded JSON value. -/
def Json.getField : Json → String → Option Json
  | .obj fields, k => lookupLast fields k
  | _, _ => none

/-- The combined JavaScript test `!x || typeof x !== 'object'` (negated):
`null` is `typeof 'object'` but falsy; arrays and objects are the only
JSON-decodable values that are both truthy and `typeof 'object'`. -/
def Json.isObjLike : Json → Bool
  | .arr _ => true
  | .obj _ => true
  | _ => false

/-- JavaScript truthiness of a JSON-decodable value. -/
def Json.isTruthy : Json → Bool
  | .null => false
  | .bool b => b
  | .num q => !(q == 0)
  | .str s => !(s == "")
  | .arr _ => true
  | .obj _ => true

/-- Whitespace for the purposes of `String.prototype.trim` (the characters
that occur in this development; JS also trims other Unicode space code
points, none of which appear in any value considered here). -/
def jsIsSpace (c : Char) : Bool :=
  c == ' ' || c == '\t' || c == '\n' || c == '\r'

/-- Model of `String.prototype.trim`. -/
def jsTrim (s : String) : String :=
  ⟨((s.data.dropWhile jsIsSpace).reverse.dropWhile jsIsSpace).reverse⟩

/-- `suffix` test used for the `.jsonl` file filter (`String.prototype.endsWith`). -/
def jsEndsWith (s suffix : String) : Bool :=
  suffix.data.isSuffixOf s.data

/-- `field !== 'lit'`, negated: true exactly when the (possibly absent) field
is the string literal. -/
def fieldEqStr (o : Option Json) (lit : String) : Bool :=
  match o with
  | some (.str t) => t == lit
  | _ => false

/-- `typeof f === 'string' && f.trim().length !== 0` (the model check). -/
def isNonBlankString (o : Option Json) : Bool :=
  match o with
  | some (.str s) => !((jsTrim s).length == 0)
  | _ => false

/-- `typeof f === 'string' && f.length !== 0` (the message-id check: no trim). -/
def isNonEmptyString (o : Option Json) : Bool :=
  match o with
  | some (.str s) => !(s.length == 0)
  | _ => false

/-- `typeof f === 'number'`. -/
def isNumField (o : Option Json) : Bool :=
  match o with
  | some (.num _) => true
  | _ => false

/-- `typeof f === 'number' && f > 0`. -/
def isPositiveNumField (o : Option Json) : Bool :=
  match o with
  | some (.num q) => decide (0 < q)
  | _ => false

/-- `isTokenBearingAssistant` as defined in `parser.ts` (lines 31–51),
check for check in source order. -/
def parserIsTokenBearingAssistant (entry : Json) : Bool :=
  if !entry.isObjLike then false
  else if !(fieldEqStr (entry.getField "type") "assistant") then false
  else
    match entry.getField "message" with
    | none => false
    | some message =>
      if !message.isObjLike then false
      else if !(isNonBlankString (message.getField "model")) then false
      else
        match message.getField "usage" with
        | none => false
        | some usage =>
          if !usage.isObjLike then false
          else if !(isPositiveNumField (usage.getField "input_tokens")) then false
          else if !(isNumField (usage.getField "output_tokens")) then false
          else if !(isNumField (usage.getField "cache_creation_input_tokens")) then false
          else if !(isNumField (usage.getField "cache_read_input_tokens")) then false
          else if !(isNonEmptyString (message.getField "id")) then false
          else true

/-- The duplicated `isTokenBearingAssistant` of `watcher.ts` (lines 44–62):
same checks in the same order (the watcher reads `candidate.message.id`
inline instead of binding it first, which changes nothing). -/
def watcherIsTokenBearingAssistant (entry : Json) : Bool :=
  if !entry.isObjLike then false
  else if !(fieldEqStr (entry.getField "type") "assistant") then false
  else
    match entry.getField "message" with
    | none => false
    | some message =>
      if !message.isObjLike then false
      else if !(isNonBlankString (message.getField "model")) then false
      else
        match message.getField "usage" with
        | none => false
        | some usage =>
          if !usage.isObjLike then false
          else if !(isPositiveNumField (usage.getField "input_tokens")) then false
          else if !(isNumField (usage.getField "output_tokens")) then false
          else if !(isNumField (usage.getField "cache_creation_input_tokens")) then false
          else if !(isNumField (usage.getField "cache_read_input_tokens")) then false
          else if !(isNonEmptyString (message.getField "id")) then false
          else true

/-! ## Row builder (§4.2, `parser.ts` lines 25–102) -/

/-- Token counts of a usage row or activity delta (`SessionUsageData.tokens`
and `ActivityUpdate.tokens` of the plugin SDK, an external data contract):
the optional cache fields are absent — `none` — when not attached. -/
structure UsageTokens where
  input : ℚ
  output : ℚ
  cacheRead : Option ℚ
  cacheWrite : Option ℚ
deriving DecidableEq, Repr

/-- A normalized usage row (`SessionUsageData`, external data contract). -/
structure SessionUsageData where
  sessionId : String
  providerId : String
  modelId : String
  tokens : UsageTokens
  timestamp : Int
  sessionUpdatedAt : Int
  sessionName : Option String
  projectPath : Option String
deriving DecidableEq, Repr

/-- An activity delta callback payload (`ActivityUpdate`, external data contract). -/
structure ActivityUpdate where
  sessionId : String
  messageId : String
  tokens : UsageTokens
  timestamp : Int
deriving DecidableEq, Repr

/-- Post-validation string field access (`entry.message.model` after the type
guard narrowed the entry; the default is unreachable for validated entries). -/
def getStrD : Option Json → String
  | some (.str s) => s
  | _ => ""

/-- Post-validation numeric field access. -/
def getNumD : Option Json → ℚ
  | some (.num q) => q
  | _ => 0

/-- `entry.message` on a validated entry. -/
def entryMessage (e : Json) : Json :=
  (e.getField "message").getD .null

/-- `entry.message.usage` on a validated entry. -/
def entryUsage (e : Json) : Json :=
  ((entryMessage e).getField "usage").getD .null

/-- `entry.message.id` on a validated entry. -/
def entryMessageId (e : Json) : String :=
  getStrD ((entryMessage e).getField "id")

/-- `entry.message.model` on a validated entry. -/
def entryModel (e : Json) : String :=
  getStrD ((entryMessage e).getField "model")

/-- A named usage counter of a validated entry. -/
def usageNum (e : Json) (k : String) : ℚ :=
  getNumD ((entryUsage e).getField k)

/-- `toTimestamp` from `parser.ts` (lines 25–29).  `dp` abstracts the host's
`Date.parse` composed with JavaScript string coercion and the
`Number.isFinite` test (`none` = not-a-number); `!value` is JS falsiness. -/
def toTimestamp (dp : Json → Option Int) (value : Option Json) (fallback : Int) : Int :=
  match value with
  | none => fallback
  | some v =>
    if !v.isTruthy then fallback
    else
      match dp v with
      | some parsed => parsed
      | none => fallback

/-- `extractSlug` from `parser.ts` (lines 53–61), iterating from the end:
helper on the reversed list. -/
def extractSlugRev : List Json → Option String
  | [] => none
  | e :: rest =>
    match e.getField "slug" with
    | some (.str s) => if 0 < s.length then some s else extractSlugRev rest
    | _ => extractSlugRev rest

/-- `extractSlug` from `parser.ts`: last entry whose `slug` is a non-empty string. -/
def extractSlug (entries : List Json) : Option String :=
  extractSlugRev entries.reverse

/-- `extractProjectPath` from `utils.ts`: first entry whose `cwd`, trimmed, is
truthy, returning the trimmed value.  `entry.cwd?.trim()` optional-chains only
through `null`/`undefined`; on a truthy-or-falsy non-string `cwd` the `.trim`
call throws a `TypeError` (`.error ()`). -/
def extractProjectPath : List Json → Except Unit (Option String)
  | [] => .ok none
  | e :: rest =>
    match e.getField "cwd" with
    | none => extractProjectPath rest
    | some .null => extractProjectPath rest
    | some (.str s) =>
      if jsTrim s = "" then extractProjectPath rest else .ok (some (jsTrim s))
    | some _ => .error ()

/-- `deduped.set(key, value)` on a JavaScript `Map` modelled as an association
list: overwriting an existing key keeps its original insertion position. -/
def mapSet {α : Type} : List (String × α) → String → α → List (String × α)
  | [], k, v => [(k, v)]
  | (k', v') :: rest, k, v =>
    if k' = k then (k', v) :: rest else (k', v') :: mapSet rest k v

/-- `map.get(key)` on a JavaScript `Map` (keys are unique, first match). -/
def mapGet {α : Type} : List (String × α) → String → Option α
  | [], _ => none
  | (k', v) :: rest, k => if k' = k then some v else mapGet rest k

/-- `map.delete(key)` on a JavaScript `Map`. -/
def mapDelete {α : Type} (m : List (String × α)) (k : String) : List (String × α) :=
  m.filter (fun p => !(p.1 == k))

/-- The loop body of `parseSessionFileRows` (`parser.ts` lines 71–96): the
usage row built for one validated entry. -/
def buildUsageRow (dp : Json → Option Int) (sessionId : String) (mtimeMs : Int)
    (sessionName projectPath : Option String) (entry : Json) : SessionUsageData :=
  { sessionId := sessionId
    providerId := "anthropic"
    modelId := entryModel entry
    tokens :=
      { input := usageNum entry "input_tokens"
        output := usageNum entry "output_tokens"
        cacheRead :=
          if 0 < usageNum entry "cache_read_input_tokens"
          then some (usageNum entry "cache_read_input_tokens") else none
        cacheWrite :=
          if 0 < usageNum entry "cache_creation_input_tokens"
          then some (usageNum entry "cache_creation_input_tokens") else none }
    timestamp := toTimestamp dp (entry.getField "timestamp") mtimeMs
    sessionUpdatedAt := mtimeMs
    sessionName := sessionName
    projectPath := projectPath }

/-- `parseSessionFileRows` from `parser.ts` (lines 63–102): skip entries that
fail the guard, dedup by `entry.message.id` into an insertion-ordered map
(last write wins), return the map's values. -/
def parseSessionFileRows (dp : Json → Option Int) (sessionId : String) (mtimeMs : Int)
    (entries : List Json) : Except Unit (List SessionUsageData) := do
  let projectPath ← extractProjectPath entries
  let sessionName := extractSlug entries
  let deduped := entries.foldl
    (fun m entry =>
      if parserIsTokenBearingAssistant entry then
        mapSet m (entryMessageId entry)
          (buildUsageRow dp sessionId mtimeMs sessionName projectPath entry)
      else m)
    []
  return deduped.map (·.2)

/-! ## Activity delta engine (§4.6, `watcher.ts`) -/

/-- `toTimestamp` from `watcher.ts` (lines 64–68): like the parser's but the
fallback is `Date.now()`. -/
def watcherToTimestamp (dp : Json → Option Int) (now : Int) (value : Option Json) : Int :=
  match value with
  | none => now
  | some v =>
    if !v.isTruthy then now
    else
      match dp v with
      | some parsed => parsed
      | none => now

/-- The per-line emission of `processJsonlDelta` (`watcher.ts` lines 152–168):
the `ActivityUpdate` passed to the callback for one validated entry. -/
def buildActivityUpdate (dp : Json → Option Int) (now : Int) (sessionId : String)
    (entry : Json) : ActivityUpdate :=
  { sessionId := sessionId
    messageId := entryMessageId entry
    tokens :=
      { input := usageNum entry "input_tokens"
        output := usageNum entry "output_tokens"
        cacheRead :=
          if 0 < usageNum entry "cache_read_input_tokens"
          then some (usageNum entry "cache_read_input_tokens") else none
        cacheWrite :=
          if 0 < usageNum entry "cache_creation_input_tokens"
          then some (usageNum entry "cache_creation_input_tokens") else none }
    timestamp := watcherToTimestamp dp now (entry.getField "timestamp") }

/-- `consumeForceFullReconciliation` from `watcher.ts` (lines 230–236):
returns the flag's current value paired with the flag's value afterwards. -/
def consumeForceFullReconciliation (flag : Bool) : Bool × Bool :=
  (flag, if flag then false else flag)

/-- `path.basename`: the part of the path after the last `/`. -/
def jsBasename (s : String) : String :=
  ⟨(s.data.reverse.takeWhile (fun c => !(c == '/'))).reverse⟩

/-- `path.basename(name, '.jsonl')` given a bare file name: strip the
extension when present. -/
def stripJsonlSuffix (name : String) : String :=
  if jsEndsWith name ".jsonl" then ⟨name.data.take (name.data.length - 6)⟩ else name

/-- Session id derived from a delta file path (`watcher.ts` line 136). -/
def deltaSessionId (filePath : String) : String :=
  stripJsonlSuffix (jsBasename filePath)

/-- State of the activity watcher that `processJsonlDelta` touches: whether a
callback is registered, and the per-file byte-offset table. -/
structure ActivityState where
  hasCallback : Bool
  fileOffsets : List (String × Nat)
deriving DecidableEq, Repr

/-- The byte range `[startOffset, startOffset + length)` a delta pass read
(`watcher.ts` lines 118, 125): the length is the JavaScript subtraction
`stat.size - startOffset`, an integer. -/
structure DeltaRead where
  startOffset : Nat
  length : Int
deriving DecidableEq, Repr

/-- Output of one `processJsonlDelta` pass: the new watcher state, the emitted
callback payloads in order, and the attempted read range (when a read happened). -/
structure DeltaOutput where
  state : ActivityState
  updates : List ActivityUpdate
  read : Option DeltaRead
deriving Repr

/-- `processJsonlDelta` from `watcher.ts` (lines 105–170).  `statSize` is the
result of `fs.stat` (`none` = the stat threw); `readOk` tells whether the
open/read/close succeeded; `readChunk start len` yields the decoded lines of
the read byte range, each line either a parsed JSON value or `none` for a
blank or malformed line (both are skipped identically by the source). -/
def processJsonlDelta (dp : Json → Option Int) (now : Int) (st : ActivityState)
    (filePath : String) (statSize : Option Nat) (readOk : Bool)
    (readChunk : Nat → Int → List (Option Json)) : DeltaOutput :=
  if !st.hasCallback then ⟨st, [], none⟩
  else
    match statSize with
    | none => ⟨{ st with fileOffsets := mapDelete st.fileOffsets filePath }, [], none⟩
    | some size =>
      let knownOffset := (mapGet st.fileOffsets filePath).getD 0
      let startOffset := if size < knownOffset then 0 else knownOffset
      if size = startOffset then ⟨st, [], none⟩
      else
        let length : Int := (size : Int) - (startOffset : Int)
        let read : Option DeltaRead := some ⟨startOffset, length⟩
        if !readOk then ⟨st, [], read⟩
        else
          let st' := { st with fileOffsets := mapSet st.fileOffsets filePath size }
          let sessionId := deltaSessionId filePath
          let updates := (readChunk startOffset length).filterMap
            (fun line =>
              match line with
              | none => none
              | some entry =>
                if watcherIsTokenBearingAssistant entry
                then some (buildActivityUpdate dp now sessionId entry)
                else none)
          ⟨st', updates, read⟩

/-! ## Aggregate cache (§4.4) and whole-result cache state -/

/-- An aggregate-cache entry (`SessionAggregateCacheEntry` from `types.ts`). -/
structure AggEntry where
  updatedAt : Int
  usageRows : List SessionUsageData
  lastAccessed : Int
deriving DecidableEq, Repr

/-- Modelled from the spec: `evictSessionAggregateCache` lives in `cache.ts`,
which is not part of the available sources (only its test file and callers
are).  Per §4.4 of the spec: if the entry count exceeds the fixed capacity,
sort the entries in ascending order of last-access time (a stable sort, so
ties break deterministically) and evict from the front until the count equals
the capacity exactly; at-capacity or below, do nothing.  Eviction from a
JavaScript `Map` deletes by key, preserving the order of the survivors. -/
def evictSessionAggregateCache (cap : Nat) (cache : List (String × AggEntry)) :
    List (String × AggEntry) :=
  if cache.length ≤ cap then cache
  else
    let sorted := List.insertionSort
      (fun a b => a.2.lastAccessed ≤ b.2.lastAccessed) cache
    let removedKeys := (sorted.take (cache.length - cap)).map (·.1)
    cache.filter (fun e => !(removedKeys.contains e.1))

/-- The single whole-result TTL cache slot (`sessionCache` from `cache.ts`,
shape reconstructed from its uses in `parser.ts` lines 121–130 and 250–255:
`lastCheck`, `lastLimit`, `lastSince`, `lastResult`; `Option` covers the
initial unset parameter values). -/
structure SessionCacheState where
  lastCheck : Int
  lastLimit : Option Int
  lastSince : Option Int
  lastResult : List SessionUsageData
deriving DecidableEq, Repr

/-- A metadata-index entry (`sessionMetadataIndex` values, `parser.ts` line 206). -/
structure MetaEntry where
  mtimeMs : Int
  sessionId : String
deriving DecidableEq, Repr

/-! ## Scan orchestrator (§4.3, `parseSessionsFromProjects`) -/

/-- `SessionParseOptions` (query surface, §6): optional single-unit id,
optional row limit, optional `since` lower bound. -/
structure SessionParseOptions where
  sessionId : Option String
  limit : Option Int
  since : Option Int
deriving DecidableEq, Repr

/-- The mutable module state the scan reads and writes: the whole-result
cache, the metadata index, the aggregate cache, the watcher's dirty-path set
and one-shot reconciliation flag, and whether the session watcher started. -/
structure ScanState where
  sessionCache : SessionCacheState
  metadataIndex : List (String × MetaEntry)
  aggCache : List (String × AggEntry)
  dirtyPaths : List String
  forceFull : Bool
  watcherStarted : Bool
deriving DecidableEq, Repr

/-- A directory entry as returned by `fs.readdir(..., { withFileTypes: true })`. -/
structure DirEntry where
  name : String
  isFile : Bool
deriving DecidableEq, Repr

/-- The filesystem as the scan observes it: whether the projects root passes
`fs.access`; the project sub-directories (`getProjectDirs`, which returns `[]`
when its own `readdir` throws); per-directory listings (`none` = `readdir`
threw); per-file `stat.mtimeMs` (`none` = stat threw, file vanished); and the
decoded JSON rows `readJsonlFile` yields for each file (that helper already
drops malformed lines and returns `[]` on read failure). -/
structure World where
  rootExists : Bool
  projectDirs : List String
  readdir : String → Option (List DirEntry)
  statMtime : String → Option Int
  fileRows : String → List Json

/-- JavaScript truthiness of `options.sessionId` (an optional string): the
source tests the raw value, so the empty string counts as absent. -/
def optStrTruthy : Option String → Bool
  | some s => !(s == "")
  | none => false

/-- The single-unit filter (`parser.ts` line 163): keep a file unless a truthy
`options.sessionId` is given and differs from the file's session id. -/
def sessionIdMatches (opt : Option String) (sessionId : String) : Bool :=
  !(optStrTruthy opt) || (opt == some sessionId)

/-- The `since` filter (`parser.ts` lines 175, 196, 207): `!since ||
mtimeMs >= since` — a `since` of `0` is falsy and filters nothing. -/
def sinceOk (since : Option Int) (mtimeMs : Int) : Bool :=
  match since with
  | none => true
  | some s => s == 0 || decide (s ≤ mtimeMs)

/-- A candidate file selected for inclusion (`ParsedSessionFile`). -/
structure ParsedSessionFile where
  sessionId : String
  filePath : String
  mtimeMs : Int
deriving DecidableEq, Repr

/-- Accumulator of the directory-walking phase (`parser.ts` lines 140–211). -/
structure CollectAcc where
  files : List ParsedSessionFile
  idx : List (String × MetaEntry)
  seen : List String
  statCount : Nat
  statSkipCount : Nat
  dirtyHitCount : Nat
  fsOps : Nat
deriving Repr

/-- Is this directory entry a candidate file: a regular file named `*.jsonl`
passing the single-unit filter (`parser.ts` lines 160–163). -/
def isCandidate (optSessionId : Option String) (e : DirEntry) : Bool :=
  e.isFile && jsEndsWith e.name ".jsonl"
    && sessionIdMatches optSessionId (stripJsonlSuffix e.name)

/-- The per-file body of the scan's directory walk (`parser.ts` lines
159–210): filter, dirty-check, metadata fast path or stat, `since` filter,
index update. -/
def processEntry (since : Option Int) (optSessionId : Option String)
    (dirty : List String) (needsFullStat : Bool) (w : World) (dirPath : String)
    (acc : CollectAcc) (e : DirEntry) : CollectAcc :=
  if !(e.isFile && jsEndsWith e.name ".jsonl") then acc
  else
    let sessionId := stripJsonlSuffix e.name
    if !(sessionIdMatches optSessionId sessionId) then acc
    else
      let filePath := dirPath ++ "/" ++ e.name
      let acc := { acc with seen := acc.seen ++ [filePath] }
      let isDirty := dirty.contains filePath
      let acc := if isDirty then { acc with dirtyHitCount := acc.dirtyHitCount + 1 } else acc
      let metadata := mapGet acc.idx filePath
      match metadata, (!isDirty && !needsFullStat) with
      | some m, true =>
        -- trusted fast path: no stat syscall
        { acc with
          statSkipCount := acc.statSkipCount + 1
          files := if sinceOk since m.mtimeMs
            then acc.files ++ [⟨m.sessionId, filePath, m.mtimeMs⟩] else acc.files }
      | _, _ =>
        let acc := { acc with statCount := acc.statCount + 1, fsOps := acc.fsOps + 1 }
        match w.statMtime filePath with
        | none => { acc with idx := mapDelete acc.idx filePath }
        | some mtimeMs =>
          match metadata with
          | some m =>
            if m.mtimeMs = mtimeMs then
              { acc with
                files := if sinceOk since m.mtimeMs
                  then acc.files ++ [⟨m.sessionId, filePath, m.mtimeMs⟩] else acc.files }
            else
              { acc with
                idx := mapSet acc.idx filePath ⟨mtimeMs, sessionId⟩
                files := if sinceOk since mtimeMs
                  then acc.files ++ [⟨sessionId, filePath, mtimeMs⟩] else acc.files }
          | none =>
            { acc with
              idx := mapSet acc.idx filePath ⟨mtimeMs, sessionId⟩
              files := if sinceOk since mtimeMs
                then acc.files ++ [⟨sessionId, filePath, mtimeMs⟩] else acc.files }

/-- The directory walk over all project directories (`parser.ts` lines
149–211); each `readdir` is one filesystem operation whether it succeeds or
throws. -/
def collectFiles (since : Option Int) (optSessionId : Option String)
    (dirty : List String) (needsFullStat : Bool) (w : World)
    (idx : List (String × MetaEntry)) : CollectAcc :=
  w.projectDirs.foldl
    (fun acc dirPath =>
      match w.readdir dirPath with
      | none => { acc with fsOps := acc.fsOps + 1 }
      | some entries =>
        entries.foldl (processEntry since optSessionId dirty needsFullStat w dirPath)
          { acc with fsOps := acc.fsOps + 1 })
    ⟨[], idx, [], 0, 0, 0, 0⟩

/-- The per-included-unit loop of the scan (`parser.ts` lines 225–246):
aggregate-cache hit refreshes `lastAccessed` and reuses stored rows; a miss
reads the file, builds its rows, stores them.  Returns the concatenated rows,
the updated aggregate cache, and the number of file reads. -/
def buildRows (dp : Json → Option Int) (now : Int) (w : World) :
    List ParsedSessionFile → List (String × AggEntry) →
    Except Unit (List SessionUsageData × List (String × AggEntry) × Nat)
  | [], agg => .ok ([], agg, 0)
  | f :: rest, agg =>
    match mapGet agg f.sessionId with
    | some cached =>
      if cached.updatedAt = f.mtimeMs then do
        let agg := mapSet agg f.sessionId { cached with lastAccessed := now }
        let (rows, agg', reads) ← buildRows dp now w rest agg
        return (cached.usageRows ++ rows, agg', reads)
      else do
        let usageRows ← parseSessionFileRows dp f.sessionId f.mtimeMs (w.fileRows f.filePath)
        let agg := mapSet agg f.sessionId ⟨f.mtimeMs, usageRows, now⟩
        let (rows, agg', reads) ← buildRows dp now w rest agg
        return (usageRows ++ rows, agg', reads + 1)
    | none => do
      let usageRows ← parseSessionFileRows dp f.sessionId f.mtimeMs (w.fileRows f.filePath)
      let agg := mapSet agg f.sessionId ⟨f.mtimeMs, usageRows, now⟩
      let (rows, agg', reads) ← buildRows dp now w rest agg
      return (usageRows ++ rows, agg', reads + 1)

/-- Observable outcome of one scan call. -/
structure ScanOutput where
  rows : List SessionUsageData
  usedCache : Bool
  statCount : Nat
  statSkipCount : Nat
  fsOps : Nat
deriving DecidableEq, Repr

/-- The whole-result-cache validity test (`parser.ts` lines 121–127), in
source order: no truthy single-unit filter (`!options.sessionId`), limit equal
to the cached limit, within the TTL window, a non-empty cached result, and
`since` equal to the cached `since`. -/
def scanHit (TTL now : Int) (opts : SessionParseOptions) (st : ScanState) : Bool :=
  !(optStrTruthy opts.sessionId)
    && (some (opts.limit.getD 100) == st.sessionCache.lastLimit)
    && decide (now - st.sessionCache.lastCheck < TTL)
    && decide (0 < st.sessionCache.lastResult.length)
    && (st.sessionCache.lastSince == opts.since)

/-- The body of the scan past the whole-result-cache check (`parser.ts` lines
132–269): drain the dirty set, consume the reconciliation flag, walk the
directories, purge unseen index entries, sort included units by modification
time descending (the JavaScript comparator `b.mtimeMs - a.mtimeMs` under the
stable `Array.prototype.sort`), build the rows, run the eviction pass, and
store the whole-result cache on global scans. -/
def scanBody (TTL : Int) (cap : Nat) (dp : Json → Option Int)
    (now : Int) (opts : SessionParseOptions) (w : World) (st : ScanState) :
    Except Unit (ScanOutput × ScanState) :=
  let limit := opts.limit.getD 100
  let since := opts.since
  let dirty := st.dirtyPaths
  let st := { st with dirtyPaths := [] }
  let consumed := consumeForceFullReconciliation st.forceFull
  let needsFullStat := consumed.1
  let st := { st with forceFull := consumed.2 }
  let acc := collectFiles since opts.sessionId dirty needsFullStat w st.metadataIndex
  let idx := acc.idx.filter (fun p => acc.seen.contains p.1)
  let files := List.insertionSort (fun a b => b.mtimeMs ≤ a.mtimeMs) acc.files
  match buildRows dp now w files st.aggCache with
  | .error e => .error e
  | .ok (rows, agg, reads) =>
    let agg := evictSessionAggregateCache cap agg
    let sc := if !(optStrTruthy opts.sessionId)
      then (⟨now, some limit, since, rows⟩ : SessionCacheState)
      else st.sessionCache
    .ok (⟨rows, false, acc.statCount, acc.statSkipCount, 2 + acc.fsOps + reads⟩,
      { st with metadataIndex := idx, aggCache := agg, sessionCache := sc })

/-- `parseSessionsFromProjects` from `parser.ts` (lines 104–270).  `TTL` is
`CACHE_TTL_MS` and `cap` is `SESSION_AGGREGATE_CACHE_MAX` (constants of the
missing `cache.ts`); `now` stands for `Date.now()` (the call at line 120, and
the second call at line 251 is modelled as the same instant); `usedCache`
records whether the whole-result-cache early return at line 129 was taken;
`fsOps` counts the `fs.access`, every `readdir` (including the one inside
`getProjectDirs`), every `stat`, and every file read. -/
def parseSessionsFromProjects (TTL : Int) (cap : Nat) (dp : Json → Option Int)
    (now : Int) (opts : SessionParseOptions) (w : World) (st : ScanState) :
    Except Unit (ScanOutput × ScanState) :=
  if !w.rootExists then
    .ok (⟨[], false, 0, 0, 1⟩, st)
  else
    let st := { st with watcherStarted := true }
    if scanHit TTL now opts st then
      .ok (⟨st.sessionCache.lastResult, true, 0, 0, 1⟩, st)
    else
      scanBody TTL cap dp now opts w st

/-! ## Concrete inputs used by witnesses and counterexamples -/

/-- A host `Date.parse` model that parses nothing (all timestamps fall back). -/
def dpNone : Json → Option Int := fun _ => none

/-- A well-typed usage object, like the test helpers of the repository build. -/
def mkUsage (inp outp cw cr : ℚ) : Json :=
  .obj [("input_tokens", .num inp), ("output_tokens", .num outp),
        ("cache_creation_input_tokens", .num cw), ("cache_read_input_tokens", .num cr)]

/-- A minimal token-bearing assistant entry with the given message id, model
and counters (no `timestamp`, `cwd` or `slug` fields). -/
def mkEntry (id model : String) (inp outp cr cw : ℚ) : Json :=
  .obj [("type", .str "assistant"),
        ("message", .obj [("model", .str model), ("id", .str id),
                          ("usage", mkUsage inp outp cw cr)])]

/-- The §8 end-to-end scenario: three lines for `m1` (outputs ending in 954),
two for `m2` (outputs ending in 500), input 3 on every line, cache counters
17890/1297 for `m1` and 19464/1124 for `m2`. -/
def c5Entries : List Json :=
  [mkEntry "m1" "mA" 3 9 17890 1297,
   mkEntry "m1" "mA" 3 9 17890 1297,
   mkEntry "m1" "mA" 3 954 17890 1297,
   mkEntry "m2" "mA" 3 11 19464 1124,
   mkEntry "m2" "mA" 3 500 19464 1124]

/-- The two rows the scenario must produce. -/
def c5Rows (sid : String) (mt : Int) : List SessionUsageData :=
  [⟨sid, "anthropic", "mA", ⟨3, 954, some 17890, some 1297⟩, mt, mt, none, none⟩,
   ⟨sid, "anthropic", "mA", ⟨3, 500, some 19464, some 1124⟩, mt, mt, none, none⟩]

/-- An otherwise-valid assistant entry whose message id is the single space. -/
def c10Entry : Json := mkEntry " " "claude-3" 3 0 0 0

/-! ## C1 — validator parity -/

/-- C1: Validator parity — for every JSON-decodable input value, the validator
of the batch scan path (`isTokenBearingAssistant` in `parser.ts`) and the
validator of the delta path (`isTokenBearingAssistant` in `watcher.ts`) return
identical boolean results.  The two source functions are duplicated but
line-for-line identical, so their embeddings are definitionally equal. -/
theorem c1_validator_parity (entry : Json) :
    parserIsTokenBearingAssistant entry = watcherIsTokenBearingAssistant entry := rfl

/-! ## C10 — whitespace-only message ids are accepted -/

/-- C10: Both validators accept an otherwise-valid assistant record whose
message id is the whitespace-only string `" "`, because the id check tests
only `length !== 0` without trimming — while the model check trims, so a
whitespace-only model is rejected, and an empty id is rejected. -/
theorem c10_whitespace_message_id_accepted :
    entryMessageId c10Entry = " "
    ∧ parserIsTokenBearingAssistant c10Entry = true
    ∧ watcherIsTokenBearingAssistant c10Entry = true
    ∧ parserIsTokenBearingAssistant (mkEntry "" "claude-3" 3 0 0 0) = false
    ∧ parserIsTokenBearingAssistant (mkEntry "x" " " 3 0 0 0) = false := by
  refine ⟨rfl, rfl, rfl, rfl, rfl⟩

/-! ## C5 — end-to-end row building with last-write-wins dedup -/

/-- C5: The §8 scenario — `parseSessionFileRows` on the five-line sequence
returns exactly the two rows `m1 ↦ {input 3, output 954, cacheRead 17890,
cacheWrite 1297}` and `m2 ↦ {input 3, output 500, cacheRead 19464,
cacheWrite 1124}`, with total input 6; and in general two validated records
sharing a message id collapse to the single row built from the last record. -/
theorem c5_end_to_end_dedup :
    (∀ dp sid mt, parseSessionFileRows dp sid mt c5Entries = .ok (c5Rows sid mt)
      ∧ ((c5Rows sid mt).map (fun r => r.tokens.input)).sum = 6)
    ∧ (∀ dp sid mt e1 e2 p,
        parserIsTokenBearingAssistant e1 = true →
        parserIsTokenBearingAssistant e2 = true →
        entryMessageId e1 = entryMessageId e2 →
        extractProjectPath [e1, e2] = .ok p →
        parseSessionFileRows dp sid mt [e1, e2] =
          .ok [buildUsageRow dp sid mt (extractSlug [e1, e2]) p e2]) := by
  constructor
  · intro dp sid mt
    refine ⟨rfl, ?_⟩
    simp [c5Rows]
    norm_num
  · intro dp sid mt e1 e2 p h1 h2 hid hp
    simp only [parseSessionFileRows, hp, List.foldl, h1, h2, if_true, bind, Except.bind,
      List.map, mapSet, hid, if_pos, pure, Except.pure]

/-- Closed witness for C5's hypotheses: the last-write-wins conclusion at two
concrete duplicate records. -/
theorem c5_end_to_end_dedup_witness :
    parseSessionFileRows dpNone "s" 0
        [mkEntry "m1" "mA" 3 9 17890 1297, mkEntry "m1" "mA" 3 954 17890 1297] =
      .ok [buildUsageRow dpNone "s" 0
        (extractSlug [mkEntry "m1" "mA" 3 9 17890 1297, mkEntry "m1" "mA" 3 954 17890 1297])
        none (mkEntry "m1" "mA" 3 954 17890 1297)] :=
  c5_end_to_end_dedup.2 dpNone "s" 0 _ _ none rfl rfl rfl rfl

/-! ## C7 — zero cache counters are omitted on both paths -/

/-- C7: For every validated record, on both the batch path (the row built by
`parseSessionFileRows`) and the delta path (the `ActivityUpdate` payload the
delta loop emits), a zero cache-read counter yields no `cacheRead` field and a
strictly positive one is attached with its exact value; likewise for the
cache-creation counter and `cacheWrite`. -/
theorem c7_zero_omission (dp : Json → Option Int) (now : Int) (sid : String) (mt : Int)
    (p : Option String) (e : Json)
    (h1 : parserIsTokenBearingAssistant e = true)
    (hp : extractProjectPath [e] = .ok p) :
    ∃ r, parseSessionFileRows dp sid mt [e] = .ok [r]
      ∧ (usageNum e "cache_read_input_tokens" = 0 →
          r.tokens.cacheRead = none
          ∧ (buildActivityUpdate dp now sid e).tokens.cacheRead = none)
      ∧ (0 < usageNum e "cache_read_input_tokens" →
          r.tokens.cacheRead = some (usageNum e "cache_read_input_tokens")
          ∧ (buildActivityUpdate dp now sid e).tokens.cacheRead =
              some (usageNum e "cache_read_input_tokens"))
      ∧ (usageNum e "cache_creation_input_tokens" = 0 →
          r.tokens.cacheWrite = none
          ∧ (buildActivityUpdate dp now sid e).tokens.cacheWrite = none)
      ∧ (0 < usageNum e "cache_creation_input_tokens" →
          r.tokens.cacheWrite = some (usageNum e "cache_creation_input_tokens")
          ∧ (buildActivityUpdate dp now sid e).tokens.cacheWrite =
              some (usageNum e "cache_creation_input_tokens")) := by
  refine ⟨buildUsageRow dp sid mt (extractSlug [e]) p e, ?_, ?_, ?_, ?_, ?_⟩
  · simp only [parseSessionFileRows, hp, List.foldl, h1, if_true, bind, Except.bind,
      mapSet, List.map, pure, Except.pure]
  · intro hz
    constructor <;> simp [buildUsageRow, buildActivityUpdate, hz]
  · intro hpos
    constructor <;> simp [buildUsageRow, buildActivityUpdate, hpos]
  · intro hz
    constructor <;> simp [buildUsageRow, buildActivityUpdate, hz]
  · intro hpos
    constructor <;> simp [buildUsageRow, buildActivityUpdate, hpos]

/-- Closed witness for C7 at a concrete record with a zero cache-read counter
and a positive cache-creation counter. -/
theorem c7_zero_omission_witness :
    ∃ r, parseSessionFileRows dpNone "s" 0 [mkEntry "m1" "mA" 3 9 0 1297] = .ok [r]
      ∧ (usageNum (mkEntry "m1" "mA" 3 9 0 1297) "cache_read_input_tokens" = 0 →
          r.tokens.cacheRead = none
          ∧ (buildActivityUpdate dpNone 7 "s" (mkEntry "m1" "mA" 3 9 0 1297)).tokens.cacheRead = none)
      ∧ (0 < usageNum (mkEntry "m1" "mA" 3 9 0 1297) "cache_read_input_tokens" →
          r.tokens.cacheRead = some (usageNum (mkEntry "m1" "mA" 3 9 0 1297) "cache_read_input_tokens")
          ∧ (buildActivityUpdate dpNone 7 "s" (mkEntry "m1" "mA" 3 9 0 1297)).tokens.cacheRead =
              some (usageNum (mkEntry "m1" "mA" 3 9 0 1297) "cache_read_input_tokens"))
      ∧ (usageNum (mkEntry "m1" "mA" 3 9 0 1297) "cache_creation_input_tokens" = 0 →
          r.tokens.cacheWrite = none
          ∧ (buildActivityUpdate dpNone 7 "s" (mkEntry "m1" "mA" 3 9 0 1297)).tokens.cacheWrite = none)
      ∧ (0 < usageNum (mkEntry "m1" "mA" 3 9 0 1297) "cache_creation_input_tokens" →
          r.tokens.cacheWrite = some (usageNum (mkEntry "m1" "mA" 3 9 0 1297) "cache_creation_input_tokens")
          ∧ (buildActivityUpdate dpNone 7 "s" (mkEntry "m1" "mA" 3 9 0 1297)).tokens.cacheWrite =
              some (usageNum (mkEntry "m1" "mA" 3 9 0 1297) "cache_creation_input_tokens")) :=
  c7_zero_omission dpNone 7 "s" 0 none (mkEntry "m1" "mA" 3 9 0 1297) rfl rfl

/-! ## C8 — truncation recovery in the delta engine -/

/-- Shape of the read range a delta pass attempts: either no read happened, or
the start offset is the truncation-adjusted one and lies within the file. -/
theorem processJsonlDelta_read_shape (dp : Json → Option Int) (now : Int)
    (st : ActivityState) (fp : String) (size : Nat) (readOk : Bool)
    (chunk : Nat → Int → List (Option Json)) :
    (processJsonlDelta dp now st fp (some size) readOk chunk).read = none
    ∨ ∃ s0 : Nat,
        (processJsonlDelta dp now st fp (some size) readOk chunk).read
            = some ⟨s0, (size : Int) - (s0 : Int)⟩
        ∧ s0 = (if size < (mapGet st.fileOffsets fp).getD 0 then 0
                else (mapGet st.fileOffsets fp).getD 0)
        ∧ s0 ≤ size := by
  unfold processJsonlDelta
  cases hcb : st.hasCallback
  · left; simp
  · simp only [Bool.not_true, Bool.false_eq_true, if_false]
    by_cases hlt : size < (mapGet st.fileOffsets fp).getD 0
    · simp only [if_pos hlt]
      by_cases hz : size = 0
      · left; simp [hz]
      · right
        refine ⟨0, ?_, by simp [hlt], Nat.zero_le _⟩
        simp only [if_neg hz]
        cases readOk <;> simp
    · simp only [if_neg hlt]
      by_cases hz : size = (mapGet st.fileOffsets fp).getD 0
      · left; simp [hz]
      · right
        refine ⟨(mapGet st.fileOffsets fp).getD 0, ?_, by simp [hlt], by omega⟩
        simp only [if_neg hz]
        cases readOk <;> simp

/-- C8: For every stat-reported size and recorded offset, if the size is
strictly smaller than the recorded offset then the delta read starts at offset
zero, and the computed read length `size - startOffset` is never negative. -/
theorem c8_truncation_recovery (dp : Json → Option Int) (now : Int) (st : ActivityState)
    (fp : String) (size : Nat) (readOk : Bool) (chunk : Nat → Int → List (Option Json)) :
    (∀ r, (processJsonlDelta dp now st fp (some size) readOk chunk).read = some r →
      0 ≤ r.length
      ∧ (size < (mapGet st.fileOffsets fp).getD 0 → r.startOffset = 0)) := by
  intro r hr
  rcases processJsonlDelta_read_shape dp now st fp size readOk chunk with h | ⟨s0, h, hs0, hle⟩
  · rw [h] at hr; cases hr
  · rw [h] at hr
    cases hr
    refine ⟨?_, fun hlt => ?_⟩
    · show (0 : Int) ≤ (size : Int) - (s0 : Int)
      omega
    · simp only [if_pos hlt] at hs0
      exact hs0

/-- Closed witness for C8: a file that shrank from offset 100 to size 40. -/
theorem c8_truncation_recovery_witness :
    0 ≤ (⟨0, 40⟩ : DeltaRead).length
    ∧ (40 < (mapGet (⟨true, [("f.jsonl", 100)]⟩ : ActivityState).fileOffsets "f.jsonl").getD 0 →
        (⟨0, 40⟩ : DeltaRead).startOffset = 0) :=
  c8_truncation_recovery dpNone 7 ⟨true, [("f.jsonl", 100)]⟩ "f.jsonl" 40 true
    (fun _ _ => []) ⟨0, 40⟩ rfl

/-! ## C4 — aggregate-cache eviction boundary -/

instance : IsTotal (String × AggEntry) (fun a b => a.2.lastAccessed ≤ b.2.lastAccessed) :=
  ⟨fun _ _ => le_total _ _⟩

instance : IsTrans (String × AggEntry) (fun a b => a.2.lastAccessed ≤ b.2.lastAccessed) :=
  ⟨fun _ _ _ h1 h2 => le_trans h1 h2⟩

/-- In a list sorted by ascending last-access time with pairwise-distinct
last-access times, an element lies among the first `k` exactly when fewer
than `k` elements have a strictly smaller last-access time. -/
theorem mem_take_iff_countP_lt :
    ∀ (s : List (String × AggEntry)),
      List.Sorted (fun a b => a.2.lastAccessed ≤ b.2.lastAccessed) s →
      (s.map (fun e => e.2.lastAccessed)).Nodup →
      ∀ (k : Nat) (e), e ∈ s →
        (e ∈ s.take k ↔
          s.countP (fun x => decide (x.2.lastAccessed < e.2.lastAccessed)) < k) := by
  intro s
  induction s with
  | nil => intro _ _ k e he; cases he
  | cons a t ih =>
    intro hs hnd k e he
    rw [List.sorted_cons] at hs
    obtain ⟨ha, hst⟩ := hs
    rw [List.map_cons, List.nodup_cons] at hnd
    obtain ⟨hna, hndt⟩ := hnd
    rcases List.mem_cons.mp he with rfl | het
    · have hc0 : t.countP (fun x => decide (x.2.lastAccessed < e.2.lastAccessed)) = 0 := by
        rw [List.countP_eq_zero]
        intro x hx
        simp only [decide_eq_true_eq, not_lt]
        exact ha x hx
      cases k with
      | zero => simp
      | succ k =>
        rw [List.take_succ_cons, List.countP_cons, hc0]
        simp
    · have hla_ne : e.2.lastAccessed ≠ a.2.lastAccessed := by
        intro hcontra
        exact hna (hcontra ▸ List.mem_map_of_mem (fun e => e.2.lastAccessed) het)
      have hlt : a.2.lastAccessed < e.2.lastAccessed :=
        lt_of_le_of_ne (ha e het) (fun h => hla_ne h.symm)
      have hea : e ≠ a := fun h => hla_ne (by rw [h])
      cases k with
      | zero => simp
      | succ k =>
        rw [List.take_succ_cons, List.countP_cons]
        have hpa : decide (a.2.lastAccessed < e.2.lastAccessed) = true := decide_eq_true hlt
        rw [hpa, if_pos rfl, List.mem_cons]
        have hiff := ih hst hndt k e het
        constructor
        · rintro (h | h)
          · exact absurd h hea
          · have := hiff.mp h; omega
        · intro h
          exact Or.inr (hiff.mpr (by omega))

/-- C4: Eviction boundary, for the spec-modelled `evictSessionAggregateCache`
and any cache with distinct keys and distinct last-access times — at exactly
`capacity` entries eviction changes nothing; at `capacity + k` entries (k > 0)
it leaves exactly `capacity` entries, and an entry survives exactly when at
least `k` entries have a strictly smaller last-access time (i.e. precisely the
`k` least-recently-accessed entries are removed, independent of insertion
order, which the count-based characterisation never mentions). -/
theorem c4_eviction_boundary (cap : Nat) (l : List (String × AggEntry))
    (hkeys : (l.map Prod.fst).Nodup)
    (hla : (l.map (fun e => e.2.lastAccessed)).Nodup) :
    (l.length = cap → evictSessionAggregateCache cap l = l)
    ∧ (∀ k : Nat, 0 < k → l.length = cap + k →
        (evictSessionAggregateCache cap l).length = cap
        ∧ ∀ e ∈ l, (e ∈ evictSessionAggregateCache cap l ↔
            k ≤ l.countP (fun x => decide (x.2.lastAccessed < e.2.lastAccessed)))) := by
  constructor
  · intro h
    unfold evictSessionAggregateCache
    rw [if_pos (le_of_eq h)]
  · intro k hk hlen
    have hcap : ¬ l.length ≤ cap := by omega
    obtain ⟨s, hs⟩ :
        ∃ s, List.insertionSort
          (fun a b : String × AggEntry => a.2.lastAccessed ≤ b.2.lastAccessed) l = s :=
      ⟨_, rfl⟩
    have hperm : List.Perm s l := hs ▸ List.perm_insertionSort _ l
    have hsorted : List.Sorted (fun a b => a.2.lastAccessed ≤ b.2.lastAccessed) s :=
      hs ▸ List.sorted_insertionSort _ l
    have hnd_s_la : (s.map (fun e => e.2.lastAccessed)).Nodup :=
      (hperm.map (fun e => e.2.lastAccessed)).nodup_iff.mpr hla
    have hnd_s : s.Nodup := List.Nodup.of_map _ hnd_s_la
    have hkk : l.length - cap = k := by omega
    have hks : k ≤ s.length := by rw [hperm.length_eq]; omega
    have hinj : ∀ ⦃x⦄, x ∈ l → ∀ ⦃y⦄, y ∈ l → x.1 = y.1 → x = y :=
      List.inj_on_of_nodup_map hkeys
    -- the removed keys are the keys of the first k elements of the sorted list
    have hcontains : ∀ e ∈ l,
        (((s.take (l.length - cap)).map Prod.fst).contains e.1 = true ↔
          e ∈ s.take k) := by
      intro e hel
      rw [hkk]
      constructor
      · intro hc
        have hmem : e.1 ∈ (s.take k).map Prod.fst := List.elem_iff.mp hc
        obtain ⟨x, hx, hxe⟩ := List.mem_map.mp hmem
        have hxl : x ∈ l := hperm.mem_iff.mp (List.mem_of_mem_take hx)
        rwa [hinj hxl hel hxe] at hx
      · intro hin
        exact List.elem_iff.mpr (List.mem_map_of_mem Prod.fst hin)
    have hresult : evictSessionAggregateCache cap l =
        l.filter (fun e => !(((s.take (l.length - cap)).map Prod.fst).contains e.1)) := by
      unfold evictSessionAggregateCache
      rw [if_neg hcap, hs]
    constructor
    · -- the surviving count is exactly the capacity
      rw [hresult, ← List.countP_eq_length_filter]
      obtain ⟨q, hq⟩ : ∃ q, (fun e : String × AggEntry =>
          !(((s.take (l.length - cap)).map Prod.fst).contains e.1)) = q := ⟨_, rfl⟩
      rw [hq, ← hperm.countP_eq q]
      conv_lhs => rw [← List.take_append_drop k s]
      rw [List.countP_append]
      have h1 : (s.take k).countP q = 0 := by
        rw [List.countP_eq_zero]
        intro x hx
        rw [← hq]
        show ¬ ((!(((s.take (l.length - cap)).map Prod.fst).contains x.1)) = true)
        have hxl : x ∈ l := hperm.mem_iff.mp (List.mem_of_mem_take hx)
        have hc := (hcontains x hxl).mpr hx
        rw [hc]
        decide
      have h2 : (s.drop k).countP q = (s.drop k).length := by
        rw [List.countP_eq_length]
        intro x hx
        rw [← hq]
        show (!(((s.take (l.length - cap)).map Prod.fst).contains x.1)) = true
        have hxs : x ∈ s := List.mem_of_mem_drop hx
        have hxl : x ∈ l := hperm.mem_iff.mp hxs
        have hnotin : x ∉ s.take k := fun hin =>
          (List.disjoint_take_drop hnd_s (le_refl k)) hin hx
        have hnc : ¬ (((s.take (l.length - cap)).map Prod.fst).contains x.1 = true) :=
          fun hc => hnotin ((hcontains x hxl).mp hc)
        cases hcc : ((s.take (l.length - cap)).map Prod.fst).contains x.1
        · rfl
        · exact absurd hcc hnc
      rw [h1, h2, List.length_drop, hperm.length_eq]
      omega
    · -- survival is characterised by the strict-smaller count
      intro e hel
      rw [hresult, List.mem_filter]
      have hes : e ∈ s := hperm.mem_iff.mpr hel
      have hcount := mem_take_iff_countP_lt s hsorted hnd_s_la k e hes
      have hcp := hperm.countP_eq (fun x => decide (x.2.lastAccessed < e.2.lastAccessed))
      constructor
      · rintro ⟨-, hb⟩
        have hnin : e ∉ s.take k := by
          intro hin
          have hc := (hcontains e hel).mpr hin
          rw [hc] at hb
          cases hb
        have hnlt : ¬ (s.countP (fun x => decide (x.2.lastAccessed < e.2.lastAccessed)) < k) :=
          fun hlt => hnin (hcount.mpr hlt)
        omega
      · intro hkle
        refine ⟨hel, ?_⟩
        have hnin : e ∉ s.take k := by
          intro hin
          have := hcount.mp hin
          omega
        have hc : ((s.take (l.length - cap)).map Prod.fst).contains e.1 = false := by
          cases hcc : ((s.take (l.length - cap)).map Prod.fst).contains e.1
          · rfl
          · exact absurd ((hcontains e hel).mp hcc) hnin
        rw [hc]
        rfl

/-- Closed witness for C4 at a three-entry cache with capacity one. -/
theorem c4_eviction_boundary_witness :
    (evictSessionAggregateCache 1
        [("a", ⟨0, [], 30⟩), ("b", ⟨0, [], 10⟩), ("c", ⟨0, [], 20⟩)]).length = 1
    ∧ ∀ e ∈ [(("a" : String), (⟨0, [], 30⟩ : AggEntry)), ("b", ⟨0, [], 10⟩), ("c", ⟨0, [], 20⟩)],
        (e ∈ evictSessionAggregateCache 1
            [("a", ⟨0, [], 30⟩), ("b", ⟨0, [], 10⟩), ("c", ⟨0, [], 20⟩)] ↔
          2 ≤ ([(("a" : String), (⟨0, [], 30⟩ : AggEntry)), ("b", ⟨0, [], 10⟩),
                ("c", ⟨0, [], 20⟩)]).countP
              (fun x => decide (x.2.lastAccessed < e.2.lastAccessed))) :=
  (c4_eviction_boundary 1 [("a", ⟨0, [], 30⟩), ("b", ⟨0, [], 10⟩), ("c", ⟨0, [], 20⟩)]
    (by decide) (by decide)).2 2 (by decide) (by decide)

/-! ## Structural lemmas about the scan orchestrator -/

/-- A missing projects root short-circuits to an empty result after the single
`fs.access` attempt. -/
theorem scan_root_missing (TTL : Int) (cap : Nat) (dp : Json → Option Int) (now : Int)
    (opts : SessionParseOptions) (w : World) (st : ScanState)
    (hroot : w.rootExists = false) :
    parseSessionsFromProjects TTL cap dp now opts w st = .ok (⟨[], false, 0, 0, 1⟩, st) := by
  unfold parseSessionsFromProjects
  rw [hroot]
  rfl

/-- When the whole-result-cache test passes, the scan returns the cached rows
with only the root `fs.access` performed. -/
theorem scan_hit_taken (TTL : Int) (cap : Nat) (dp : Json → Option Int) (now : Int)
    (opts : SessionParseOptions) (w : World) (st : ScanState)
    (hroot : w.rootExists = true)
    (hhit : scanHit TTL now opts { st with watcherStarted := true } = true) :
    parseSessionsFromProjects TTL cap dp now opts w st =
      .ok (⟨st.sessionCache.lastResult, true, 0, 0, 1⟩, { st with watcherStarted := true }) := by
  unfold parseSessionsFromProjects
  rw [hroot]
  simp only [Bool.not_true, Bool.false_eq_true, if_false, hhit, if_true]

/-- When the whole-result-cache test fails, the scan runs the full body. -/
theorem scan_missed (TTL : Int) (cap : Nat) (dp : Json → Option Int) (now : Int)
    (opts : SessionParseOptions) (w : World) (st : ScanState)
    (hroot : w.rootExists = true)
    (hhit : scanHit TTL now opts { st with watcherStarted := true } = false) :
    parseSessionsFromProjects TTL cap dp now opts w st =
      scanBody TTL cap dp now opts w { st with watcherStarted := true } := by
  unfold parseSessionsFromProjects
  rw [hroot]
  simp only [Bool.not_true, Bool.false_eq_true, if_false, hhit]

/-- Shape of a successful scan body: the early-return flag is false, the stat
counters come from the directory walk, the reconciliation flag ends up
consumed, and the whole-result cache is rewritten exactly on global scans. -/
theorem scanBody_ok (TTL : Int) (cap : Nat) (dp : Json → Option Int) (now : Int)
    (opts : SessionParseOptions) (w : World) (st : ScanState) (o : ScanOutput)
    (st' : ScanState)
    (h : scanBody TTL cap dp now opts w st = .ok (o, st')) :
    o.usedCache = false
    ∧ o.statCount = (collectFiles opts.since opts.sessionId st.dirtyPaths
        (consumeForceFullReconciliation st.forceFull).1 w st.metadataIndex).statCount
    ∧ o.statSkipCount = (collectFiles opts.since opts.sessionId st.dirtyPaths
        (consumeForceFullReconciliation st.forceFull).1 w st.metadataIndex).statSkipCount
    ∧ st'.forceFull = (consumeForceFullReconciliation st.forceFull).2
    ∧ st'.watcherStarted = st.watcherStarted
    ∧ st'.sessionCache = (if !(optStrTruthy opts.sessionId)
        then (⟨now, some (opts.limit.getD 100), opts.since, o.rows⟩ : SessionCacheState)
        else st.sessionCache) := by
  unfold scanBody at h
  dsimp only at h
  split at h
  · cases h
  · rename_i rows agg reads heq
    rw [Except.ok.injEq, Prod.mk.injEq] at h
    obtain ⟨ho, hst⟩ := h
    subst ho
    subst hst
    refine ⟨rfl, rfl, rfl, rfl, rfl, rfl⟩

/-! ## Candidate counting for the reconciliation sweep -/

/-- Is a directory entry a candidate file for the scan: a regular `*.jsonl`
file passing the single-unit filter (`parser.ts` lines 160–163). -/
def candidateCount (optSessionId : Option String) (w : World) : Nat :=
  (w.projectDirs.map (fun d =>
    match w.readdir d with
    | none => 0
    | some es => (es.filter (isCandidate optSessionId)).length)).sum

/-- With the reconciliation sweep forced, each directory entry contributes one
stat exactly when it is a candidate, and never a metadata fast-path skip. -/
theorem processEntry_full_stat (since : Option Int) (sid : Option String)
    (dirty : List String) (w : World) (d : String) (acc : CollectAcc) (e : DirEntry) :
    (processEntry since sid dirty true w d acc e).statCount
        = acc.statCount + (if isCandidate sid e then 1 else 0)
    ∧ (processEntry since sid dirty true w d acc e).statSkipCount = acc.statSkipCount := by
  unfold processEntry isCandidate
  cases hfile : (e.isFile && jsEndsWith e.name ".jsonl")
  · simp [hfile]
  · simp only [hfile, Bool.not_true, Bool.false_eq_true, if_false, Bool.true_and]
    cases hm : sessionIdMatches sid (stripJsonlSuffix e.name)
    · simp [hm]
    · simp only [hm, Bool.not_true, Bool.false_eq_true, if_false, Bool.and_true, if_true]
      cases hdirty : dirty.contains (d ++ "/" ++ e.name) <;>
        cases hmeta : mapGet acc.idx (d ++ "/" ++ e.name) <;>
          cases hstat : w.statMtime (d ++ "/" ++ e.name) <;>
            simp [hdirty, hmeta, hstat] <;>
              (try split) <;> (try split) <;> simp

/-- Fold form of `processEntry_full_stat` over one directory's entries. -/
theorem foldl_entries_full_stat (since : Option Int) (sid : Option String)
    (dirty : List String) (w : World) (d : String) :
    ∀ (entries : List DirEntry) (acc : CollectAcc),
      ((entries.foldl (processEntry since sid dirty true w d) acc).statCount
          = acc.statCount + (entries.filter (isCandidate sid)).length)
      ∧ ((entries.foldl (processEntry since sid dirty true w d) acc).statSkipCount
          = acc.statSkipCount) := by
  intro entries
  induction entries with
  | nil => intro acc; simp
  | cons e rest ih =>
    intro acc
    rw [List.foldl_cons, List.filter_cons]
    obtain ⟨hc1, hs1⟩ := processEntry_full_stat since sid dirty w d acc e
    obtain ⟨hc2, hs2⟩ := ih (processEntry since sid dirty true w d acc e)
    refine ⟨?_, by rw [hs2, hs1]⟩
    rw [hc2, hc1]
    cases hcand : isCandidate sid e <;> simp <;> omega

/-- With the reconciliation sweep forced, the whole walk stats every candidate
file and skips none. -/
theorem collectFiles_full_stat (since : Option Int) (sid : Option String)
    (dirty : List String) (w : World) (idx : List (String × MetaEntry)) :
    (collectFiles since sid dirty true w idx).statCount = candidateCount sid w
    ∧ (collectFiles since sid dirty true w idx).statSkipCount = 0 := by
  have h : ∀ (dirs : List String) (acc : CollectAcc),
      ((dirs.foldl (fun acc dirPath =>
          match w.readdir dirPath with
          | none => { acc with fsOps := acc.fsOps + 1 }
          | some entries =>
            entries.foldl (processEntry since sid dirty true w dirPath)
              { acc with fsOps := acc.fsOps + 1 }) acc).statCount
        = acc.statCount + (dirs.map (fun d =>
            match w.readdir d with
            | none => 0
            | some es => (es.filter (isCandidate sid)).length)).sum)
      ∧ ((dirs.foldl (fun acc dirPath =>
          match w.readdir dirPath with
          | none => { acc with fsOps := acc.fsOps + 1 }
          | some entries =>
            entries.foldl (processEntry since sid dirty true w dirPath)
              { acc with fsOps := acc.fsOps + 1 }) acc).statSkipCount
        = acc.statSkipCount) := by
    intro dirs
    induction dirs with
    | nil => intro acc; simp
    | cons d rest ih =>
      intro acc
      rw [List.foldl_cons, List.map_cons, List.sum_cons]
      cases hrd : w.readdir d
      · simp only [hrd]
        obtain ⟨hc, hs⟩ := ih { acc with fsOps := acc.fsOps + 1 }
        exact ⟨by rw [hc]; dsimp only; omega, by rw [hs]⟩
      · rename_i entries
        simp only [hrd]
        obtain ⟨hc1, hs1⟩ := foldl_entries_full_stat since sid dirty w d entries
          { acc with fsOps := acc.fsOps + 1 }
        obtain ⟨hc2, hs2⟩ := ih
          (entries.foldl (processEntry since sid dirty true w d) { acc with fsOps := acc.fsOps + 1 })
        exact ⟨by rw [hc2, hc1]; dsimp only; omega, by rw [hs2, hs1]⟩
  unfold collectFiles candidateCount
  obtain ⟨hc, hs⟩ := h w.projectDirs ⟨[], idx, [], 0, 0, 0, 0⟩
  exact ⟨by rw [hc]; simp, by rw [hs]⟩

/-! ## Concrete scan scenarios -/

/-- A world with one project directory holding one session file of two valid
records. -/
def demoWorld : World :=
  { rootExists := true
    projectDirs := ["/r/p1"]
    readdir := fun d => if d = "/r/p1" then some [⟨"s1.jsonl", true⟩] else none
    statMtime := fun f => if f = "/r/p1/s1.jsonl" then some 50 else none
    fileRows := fun f => if f = "/r/p1/s1.jsonl"
      then [mkEntry "m1" "mA" 3 954 17890 1297, mkEntry "m2" "mA" 3 500 19464 1124]
      else [] }

/-- The two rows a scan of `demoWorld` produces. -/
def demoRows : List SessionUsageData :=
  [⟨"s1", "anthropic", "mA", ⟨3, 954, some 17890, some 1297⟩, 50, 50, none, none⟩,
   ⟨"s1", "anthropic", "mA", ⟨3, 500, some 19464, some 1124⟩, 50, 50, none, none⟩]

/-- A pristine module state: nothing cached, nothing dirty. -/
def freshState : ScanState := ⟨⟨0, none, none, []⟩, [], [], [], false, false⟩

/-- A state whose whole-result cache matches (limit 100, since absent, checked
at time 900) but holds an empty result list. -/
def emptyCachedState : ScanState := ⟨⟨900, some 100, none, []⟩, [], [], [], false, false⟩

/-- Like `emptyCachedState` but with a non-empty cached result. -/
def filledCachedState : ScanState := ⟨⟨900, some 100, none, demoRows⟩, [], [], [], false, false⟩

/-- A state with a metadata-index entry for the demo file and the
reconciliation flag set. -/
def c6StartState : ScanState :=
  ⟨⟨0, none, none, []⟩, [("/r/p1/s1.jsonl", ⟨50, "s1"⟩)], [], [], true, false⟩

/-- The output a fresh global scan of `demoWorld` at time 1000 yields. -/
def scannedOut : ScanOutput := ⟨demoRows, false, 1, 0, 5⟩

/-- The module state after that scan (limit 100). -/
def scannedState : ScanState :=
  ⟨⟨1000, some 100, none, demoRows⟩, [("/r/p1/s1.jsonl", ⟨50, "s1"⟩)],
   [("s1", ⟨50, demoRows, 1000⟩)], [], false, true⟩

/-- The module state after the same scan with limit 1. -/
def scannedStateL1 : ScanState :=
  ⟨⟨1000, some 1, none, demoRows⟩, [("/r/p1/s1.jsonl", ⟨50, "s1"⟩)],
   [("s1", ⟨50, demoRows, 1000⟩)], [], false, true⟩

/-! ## C2 — whole-result cache gating (corrected) -/

/-- C2 counterexample: with no single-unit filter, the incoming limit equal to
the cached limit, the incoming since equal to the cached since, and the
elapsed time within the TTL, the scan still performs a fresh walk (five
filesystem operations, early return not taken) because the cached result list
is empty — and even a cache hit performs the root `fs.access`, so the
filesystem-access count is never zero. -/
theorem c2_zero_fs_access_counterexample :
    ((parseSessionsFromProjects 60000 5 dpNone 1000 ⟨none, some 100, none⟩ demoWorld
        emptyCachedState).map (fun p => (p.1.usedCache, p.1.fsOps, p.1.rows.length))
      = .ok (false, 5, 2))
    ∧ emptyCachedState.sessionCache.lastLimit = some ((some (100 : Int)).getD 100)
    ∧ emptyCachedState.sessionCache.lastSince = none
    ∧ (1000 : Int) - emptyCachedState.sessionCache.lastCheck < 60000 := by
  refine ⟨?_, rfl, rfl, by decide⟩
  rfl

/-- C2 (amended): when no single-unit filter is given, the limit and since
equal the cached parameters, the TTL has not elapsed, and the cached result is
non-empty, the scan returns the cached whole-result having performed only the
root-directory existence check (one filesystem operation, no stat, no skip);
and a scan with a (truthy) single-unit filter neither takes the early return
nor writes the whole-result cache. -/
theorem c2_whole_result_cache_gating :
    (∀ TTL cap dp now opts w st,
      w.rootExists = true →
      opts.sessionId = none →
      st.sessionCache.lastLimit = some (opts.limit.getD 100) →
      st.sessionCache.lastSince = opts.since →
      now - st.sessionCache.lastCheck < TTL →
      st.sessionCache.lastResult ≠ [] →
      parseSessionsFromProjects TTL cap dp now opts w st =
        .ok (⟨st.sessionCache.lastResult, true, 0, 0, 1⟩, { st with watcherStarted := true }))
    ∧ (∀ TTL cap dp now opts w st o st',
      optStrTruthy opts.sessionId = true →
      parseSessionsFromProjects TTL cap dp now opts w st = .ok (o, st') →
      o.usedCache = false ∧ st'.sessionCache = st.sessionCache) := by
  constructor
  · intro TTL cap dp now opts w st hroot hsid hlim hsince httl hne
    have hhit : scanHit TTL now opts { st with watcherStarted := true } = true := by
      unfold scanHit
      dsimp only
      rw [hsid, hlim, hsince, decide_eq_true httl,
        decide_eq_true (List.length_pos.mpr hne)]
      simp [optStrTruthy]
    exact scan_hit_taken TTL cap dp now opts w st hroot hhit
  · intro TTL cap dp now opts w st o st' htruthy hscan
    cases hroot : w.rootExists
    · rw [scan_root_missing TTL cap dp now opts w st hroot] at hscan
      rw [Except.ok.injEq, Prod.mk.injEq] at hscan
      obtain ⟨ho, hst⟩ := hscan
      subst ho
      subst hst
      exact ⟨rfl, rfl⟩
    · have hhit : scanHit TTL now opts { st with watcherStarted := true } = false := by
        unfold scanHit
        rw [htruthy]
        rfl
      rw [scan_missed TTL cap dp now opts w st hroot hhit] at hscan
      obtain ⟨h1, -, -, -, -, h6⟩ := scanBody_ok TTL cap dp now opts w _ o st' hscan
      refine ⟨h1, ?_⟩
      rw [h6]
      dsimp only
      rw [htruthy]
      rfl

/-- Closed witness for C2's amended hit path at a filled cache, and for the
single-unit part via the general theorem. -/
theorem c2_whole_result_cache_gating_witness :
    parseSessionsFromProjects 60000 5 dpNone 1000 ⟨none, some 100, none⟩ demoWorld
        filledCachedState =
      .ok (⟨filledCachedState.sessionCache.lastResult, true, 0, 0, 1⟩,
        { filledCachedState with watcherStarted := true }) :=
  c2_whole_result_cache_gating.1 60000 5 dpNone 1000 ⟨none, some 100, none⟩ demoWorld
    filledCachedState rfl rfl rfl rfl (by decide) (by decide)

/-! ## C3 — row-limit enforcement (corrected: no truncation happens) -/

/-- C3 counterexample: a scan with limit 1 over a single unit holding two
token-bearing records returns two rows — more than the limit, so no final
truncation to `limit` is applied. -/
theorem c3_limit_counterexample :
    ((parseSessionsFromProjects 60000 5 dpNone 1000 ⟨none, some 1, none⟩ demoWorld
        freshState).map (fun p => p.1.rows.length) = .ok 2)
    ∧ ¬ (2 ≤ (1 : Nat)) :=
  ⟨rfl, by decide⟩

/-- C3 (amended): the limit (default 100) is accepted and recorded in the
whole-result cache parameters on global scans, but never applied as a
truncation: whenever the whole-result cache cannot hit (here: no cached
limit), the returned rows are identical for any two limit values. -/
theorem c3_limit_not_enforced :
    ∀ (TTL : Int) (cap : Nat) (dp : Json → Option Int) (now : Int)
      (opts : SessionParseOptions) (w : World) (st : ScanState) (l1 l2 : Option Int),
      st.sessionCache.lastLimit = none →
      ((parseSessionsFromProjects TTL cap dp now { opts with limit := l1 } w st).map
          (fun p => p.1.rows)
        = (parseSessionsFromProjects TTL cap dp now { opts with limit := l2 } w st).map
          (fun p => p.1.rows))
      ∧ (∀ o st', w.rootExists = true → optStrTruthy opts.sessionId = false →
          parseSessionsFromProjects TTL cap dp now { opts with limit := l1 } w st
            = .ok (o, st') →
          st'.sessionCache.lastLimit = some (l1.getD 100)) := by
  intro TTL cap dp now opts w st l1 l2 hlim
  have hhit : ∀ lo : Option Int,
      scanHit TTL now { opts with limit := lo } { st with watcherStarted := true } = false := by
    intro lo
    unfold scanHit
    dsimp only
    rw [hlim]
    have hb : ∀ x : Int, ((some x == (none : Option Int))) = false := fun _ => rfl
    rw [hb]
    simp
  constructor
  · cases hroot : w.rootExists
    · rw [scan_root_missing TTL cap dp now { opts with limit := l1 } w st hroot,
        scan_root_missing TTL cap dp now { opts with limit := l2 } w st hroot]
    · rw [scan_missed TTL cap dp now { opts with limit := l1 } w st hroot (hhit l1),
        scan_missed TTL cap dp now { opts with limit := l2 } w st hroot (hhit l2)]
      unfold scanBody
      dsimp only
      cases hbr : buildRows dp now w
          (List.insertionSort (fun a b => b.mtimeMs ≤ a.mtimeMs)
            (collectFiles opts.since opts.sessionId st.dirtyPaths
              (consumeForceFullReconciliation st.forceFull).1 w st.metadataIndex).files)
          st.aggCache
      · rfl
      · rename_i val
        obtain ⟨rows, agg, reads⟩ := val
        rfl
  · intro o st' hroot hglobal hscan
    rw [scan_missed TTL cap dp now { opts with limit := l1 } w st hroot (hhit l1)] at hscan
    obtain ⟨-, -, -, -, -, h6⟩ :=
      scanBody_ok TTL cap dp now { opts with limit := l1 } w _ o st' hscan
    rw [h6]
    dsimp only
    rw [hglobal]
    rfl

/-- Closed witness for C3's amended theorem: limits 1 and 7 yield the same
rows on the demo world, and limit 1 is recorded in the cache afterwards. -/
theorem c3_limit_not_enforced_witness :
    ((parseSessionsFromProjects 60000 5 dpNone 1000 ⟨none, some 1, none⟩ demoWorld
        freshState).map (fun p => p.1.rows)
      = (parseSessionsFromProjects 60000 5 dpNone 1000 ⟨none, some 7, none⟩ demoWorld
        freshState).map (fun p => p.1.rows))
    ∧ scannedStateL1.sessionCache.lastLimit = some ((some (1 : Int)).getD 100) :=
  ⟨(c3_limit_not_enforced 60000 5 dpNone 1000 ⟨none, none, none⟩ demoWorld freshState
      (some 1) (some 7) rfl).1,
   (c3_limit_not_enforced 60000 5 dpNone 1000 ⟨none, none, none⟩ demoWorld freshState
      (some 1) (some 7) rfl).2 scannedOut scannedStateL1 rfl rfl rfl⟩

/-! ## C6 — one-shot reconciliation flag -/

/-- C6: `consumeForceFullReconciliation` returns the current flag and leaves
it false; and when a scan that did not take the whole-result-cache early
return consumed a true flag, the metadata fast path is bypassed — zero
fast-path skips, and every candidate file (isFile, `*.jsonl`, passing the
single-unit filter) is stat'd — and the flag is false in the resulting state. -/
theorem c6_reconciliation_one_shot :
    (∀ flag, consumeForceFullReconciliation flag = (flag, false))
    ∧ (∀ TTL cap dp now opts w st o st',
        w.rootExists = true →
        st.forceFull = true →
        parseSessionsFromProjects TTL cap dp now opts w st = .ok (o, st') →
        o.usedCache = false →
        o.statSkipCount = 0 ∧ o.statCount = candidateCount opts.sessionId w
          ∧ st'.forceFull = false) := by
  constructor
  · intro flag; cases flag <;> rfl
  · intro TTL cap dp now opts w st o st' hroot hflag hscan hused
    cases hhit : scanHit TTL now opts { st with watcherStarted := true }
    · rw [scan_missed TTL cap dp now opts w st hroot hhit] at hscan
      obtain ⟨-, h2, h3, h4, -, -⟩ := scanBody_ok TTL cap dp now opts w _ o st' hscan
      dsimp only at h2 h3 h4
      rw [hflag] at h2 h3 h4
      have hcons1 : (consumeForceFullReconciliation true).1 = true := rfl
      have hcons2 : (consumeForceFullReconciliation true).2 = false := rfl
      rw [hcons1] at h2 h3
      rw [hcons2] at h4
      obtain ⟨hcf, hsk⟩ :=
        collectFiles_full_stat opts.since opts.sessionId st.dirtyPaths w st.metadataIndex
      exact ⟨by rw [h3, hsk], by rw [h2, hcf], h4⟩
    · rw [scan_hit_taken TTL cap dp now opts w st hroot hhit] at hscan
      rw [Except.ok.injEq, Prod.mk.injEq] at hscan
      obtain ⟨ho, -⟩ := hscan
      rw [← ho] at hused
      simp at hused

/-- Closed witness for C6 at the demo world with the flag set and a metadata
entry present: the one candidate file is stat'd anyway. -/
theorem c6_reconciliation_one_shot_witness :
    consumeForceFullReconciliation true = (true, false)
    ∧ (scannedOut.statSkipCount = 0
        ∧ scannedOut.statCount = candidateCount none demoWorld
        ∧ scannedState.forceFull = false) :=
  ⟨c6_reconciliation_one_shot.1 true,
   c6_reconciliation_one_shot.2 60000 5 dpNone 1000 ⟨none, some 100, none⟩ demoWorld
     c6StartState scannedOut scannedState rfl rfl rfl rfl⟩

/-! ## C9 — an empty cached whole-result is never served -/

/-- C9: even when limit, since and TTL all match, a global scan whose cached
result list is empty does not take the early return (the hit test also
requires a non-empty cached result); it performs the fresh scan and rewrites
the whole-result cache with the fresh rows. -/
theorem c9_empty_cache_not_served :
    ∀ TTL cap dp now opts w st o st',
      opts.sessionId = none →
      st.sessionCache.lastLimit = some (opts.limit.getD 100) →
      st.sessionCache.lastSince = opts.since →
      now - st.sessionCache.lastCheck < TTL →
      st.sessionCache.lastResult = [] →
      parseSessionsFromProjects TTL cap dp now opts w st = .ok (o, st') →
      o.usedCache = false ∧ st'.sessionCache.lastResult = o.rows := by
  intro TTL cap dp now opts w st o st' hsid hlim hsince httl hempty hscan
  cases hroot : w.rootExists
  · rw [scan_root_missing TTL cap dp now opts w st hroot] at hscan
    rw [Except.ok.injEq, Prod.mk.injEq] at hscan
    obtain ⟨ho, hst⟩ := hscan
    subst ho
    subst hst
    refine ⟨rfl, ?_⟩
    rw [hempty]
  · have hhit : scanHit TTL now opts { st with watcherStarted := true } = false := by
      unfold scanHit
      dsimp only
      rw [hempty]
      simp
    rw [scan_missed TTL cap dp now opts w st hroot hhit] at hscan
    obtain ⟨h1, -, -, -, -, h6⟩ := scanBody_ok TTL cap dp now opts w _ o st' hscan
    refine ⟨h1, ?_⟩
    rw [h6]
    dsimp only
    rw [hsid]
    rfl

/-- Closed witness for C9: matching limit/since/TTL but an empty cached
result; the scan rescans and stores the fresh rows. -/
theorem c9_empty_cache_not_served_witness :
    scannedOut.usedCache = false
    ∧ scannedState.sessionCache.lastResult = scannedOut.rows :=
  c9_empty_cache_not_served 60000 5 dpNone 1000 ⟨none, some 100, none⟩ demoWorld
    emptyCachedState scannedOut scannedState rfl rfl rfl (by decide) rfl rfl

end AgentClaudeCode
